import Mathlib

/-!
Shallow embedding of `src/store.rs` of the rustls-cng repository: the
Windows certificate-store wrapper (`CertStore`), its open/import lifecycle,
the generic `do_find` enumeration loop over `CertFindCertificateInStore`,
the two-phase `CertStrToNameW` name-encoding protocol, and the five public
search operations.

The Win32 API surface is modelled as an oracle structure (`WinApi`); every
embedded operation additionally returns the list of native calls it issued
(`Event`), so that claims about call ordering ("duplicate before the next
find call", "phase 1 before phase 2", "no search after an encoding
failure") are statable.
-/

/-! ### Win32 constants (values from wincrypt.h, as imported by store.rs) -/

def CERT_SYSTEM_STORE_CURRENT_USER_ID : Nat := 1
def CERT_SYSTEM_STORE_LOCAL_MACHINE_ID : Nat := 2
def CERT_SYSTEM_STORE_CURRENT_SERVICE_ID : Nat := 4
def CERT_SYSTEM_STORE_LOCATION_SHIFT : Nat := 16
def CERT_STORE_OPEN_EXISTING_FLAG : Nat := 0x00004000

def PKCS_7_ASN_ENCODING : Nat := 0x00010000
def X509_ASN_ENCODING : Nat := 0x00000001

/-- `MY_ENCODING_TYPE = PKCS_7_ASN_ENCODING | X509_ASN_ENCODING` (store.rs line 25). -/
def MY_ENCODING_TYPE : Nat := PKCS_7_ASN_ENCODING ||| X509_ASN_ENCODING

def CERT_FIND_ANY : Nat := 0
def CERT_FIND_HASH : Nat := 0x00010000
def CERT_FIND_SUBJECT_NAME : Nat := 0x00020007
def CERT_FIND_ISSUER_NAME : Nat := 0x00020004
def CERT_FIND_SUBJECT_STR : Nat := 0x00080007
def CERT_FIND_ISSUER_STR : Nat := 0x00080004

def CERT_X500_NAME_STR : Nat := 3

def CRYPT_EXPORTABLE : Nat := 0x00000001
def PKCS12_INCLUDE_EXTENDED_PROPERTIES : Nat := 0x00000010
def PKCS12_PREFER_CNG_KSP : Nat := 0x00000100

/-! ### Data model -/

/-- `CngError` (from `crate::error`): a single pass-through platform error kind. -/
inductive CngError where
  | Windows : CngError
deriving DecidableEq, Repr

/-- Certificate store type (`CertStoreType` in store.rs). -/
inductive CertStoreType where
  | LocalMachine
  | CurrentUser
  | CurrentService
deriving DecidableEq, Repr

/-- `CertStoreType::as_flags` (store.rs lines 37-49). -/
def CertStoreType.as_flags : CertStoreType → Nat
  | .LocalMachine =>
      CERT_SYSTEM_STORE_LOCAL_MACHINE_ID <<< CERT_SYSTEM_STORE_LOCATION_SHIFT
  | .CurrentUser =>
      CERT_SYSTEM_STORE_CURRENT_USER_ID <<< CERT_SYSTEM_STORE_LOCATION_SHIFT
  | .CurrentService =>
      CERT_SYSTEM_STORE_CURRENT_SERVICE_ID <<< CERT_SYSTEM_STORE_LOCATION_SHIFT

/-- A native `CERT_CONTEXT` reference.  `cursorRef i c` is the raw reference
returned by the i-th successful `CertFindCertificateInStore` call: it is owned
by the enumeration cursor and will be released by the next find call.
`duped i c` is the independently-owned reference produced by
`CertDuplicateCertificateContext` from that raw reference. -/
inductive Ctx where
  | cursorRef (idx : Nat) (certId : Nat)
  | duped (idx : Nat) (certId : Nat)
deriving DecidableEq, Repr

/-- The enumeration position encoded in a context reference. -/
def Ctx.idx : Ctx → Nat
  | .cursorRef i _ => i
  | .duped i _ => i

/-- The certificate the context refers to. -/
def Ctx.certId : Ctx → Nat
  | .cursorRef _ c => c
  | .duped _ c => c

/-- Is this reference an independently-owned duplicate (as opposed to the
cursor-owned raw reference)? -/
def Ctx.isDuped : Ctx → Bool
  | .cursorRef _ _ => false
  | .duped _ _ => true

/-- `CertDuplicateCertificateContext`: increments the reference count, yielding
an independently-owned reference to the same certificate. -/
def certDuplicateCertificateContext : Ctx → Ctx
  | .cursorRef i c => .duped i c
  | .duped i c => .duped i c

/-- `CertContext` (from `crate::cert`, external collaborator): an opaque owned
certificate handle, constructed by `CertContext::owned` which wraps a raw
context reference, taking ownership. -/
structure CertContext where
  ctx : Ctx
deriving DecidableEq, Repr

/-- `CertContext::owned`: wrap a raw handle, taking ownership. -/
def CertContext.owned (c : Ctx) : CertContext := ⟨c⟩

/-- `CertStore`: wraps one native `HCERTSTORE`.  The native store's contents
are modelled as the list of certificate ids in the store's own (native)
enumeration order. -/
structure CertStore where
  certs : List Nat
deriving DecidableEq, Repr

/-- The match parameter passed as `pvFindPara` to the native find call. -/
inductive FindParam where
  | null
  | wstr (units : List Nat)
  | blob (cbData : Nat) (bytes : List Nat)
deriving DecidableEq, Repr

/-- One native call issued by the wrapper, recorded for reasoning about call
order.  `evCertFind` records the flags, the find parameter and the index
carried by the `pPrevCertContext` argument (none for the initial null). -/
inductive Event where
  | evCertFind (flags : Nat) (param : FindParam) (prevIdx : Option Nat)
  | evCertDup (idx : Nat) (certId : Nat)
  | evStrToNameSize (encType : Nat) (name : List Nat) (strType : Nat)
  | evStrToNameFill (encType : Nat) (name : List Nat) (strType : Nat) (bufSize : Nat)
  | evCertOpenStore (flags : Nat) (name : List Nat)
  | evPfxImport (cbData : Nat) (password : List Nat) (flags : Nat)
deriving DecidableEq, Repr

/-- The Win32 certificate API, as an oracle.  `certMatches flags param c`
decides whether certificate `c` matches the query — the platform's matching
semantics (substring, exact name, hash, any) are opaque to the wrapper.
`certStrToNameSize` is `CertStrToNameW` with a null output buffer (phase 1,
size query); `certStrToNameFill` is the same call with a buffer (phase 2),
returning the bytes written.  `certOpenStore` and `pfxImportCertStore` return
the contents of the opened/imported store, or `none` for a platform error. -/
structure WinApi where
  certMatches : Nat → FindParam → Nat → Bool
  certStrToNameSize : Nat → List Nat → Nat → Option Nat
  certStrToNameFill : Nat → List Nat → Nat → Nat → Option (List Nat)
  certOpenStore : Nat → List Nat → Option (List Nat)
  pfxImportCertStore : Nat → List Nat → List Nat → Nat → Option (List Nat)

/-! ### Wide strings -/

/-- `U16CString::from_str_unchecked`: converts a Rust string to a
null-terminated wide string without scanning for interior nulls (modelled at
the level of code points).  The terminator is appended unconditionally. -/
def from_str_unchecked (s : String) : List Nat :=
  s.data.map Char.toNat ++ [0]

/-- What the platform sees when handed a pointer to a null-terminated string:
everything up to (excluding) the first null unit. -/
def cstrView (units : List Nat) : List Nat :=
  units.takeWhile (fun u => u ≠ 0)

/-! ### The enumeration engine (`CertStore::do_find`, store.rs lines 147-169) -/

/-- The sequence of matches the native store yields for a query, in the
store's own enumeration order. -/
def matchesOf (p : WinApi) (st : CertStore) (flags : Nat) (param : FindParam) :
    List Nat :=
  st.certs.filter (p.certMatches flags param)

/-- The enumeration position the next find call will return, given the
`pPrevCertContext` argument. -/
def nextIdx : Option Ctx → Nat
  | none => 0
  | some c => c.idx + 1

/-- `CertFindCertificateInStore`: returns the raw (cursor-owned) reference to
the next match after `prev`, or null (`none`) when the enumeration is
exhausted. -/
def certFindCertificateInStore (ms : List Nat) (prev : Option Ctx) :
    Option Ctx :=
  (ms.get? (nextIdx prev)).map (fun c => Ctx.cursorRef (nextIdx prev) c)

/-- The body of the `loop` in `do_find`: call the native find with the raw
reference from the previous iteration; on null break, otherwise duplicate the
match, push the duplicate, and continue with the raw reference. -/
def do_findAux (p : WinApi) (st : CertStore) (flags : Nat) (param : FindParam)
    (prev : Option Ctx) : List CertContext × List Event :=
  let ev := Event.evCertFind flags param (prev.map Ctx.idx)
  match h : certFindCertificateInStore (matchesOf p st flags param) prev with
  | none => ([], [ev])
  | some ctx =>
      let cert := certDuplicateCertificateContext ctx
      let r := do_findAux p st flags param (some ctx)
      (CertContext.owned cert :: r.1,
       ev :: Event.evCertDup ctx.idx ctx.certId :: r.2)
termination_by (matchesOf p st flags param).length - nextIdx prev
decreasing_by
  simp only [certFindCertificateInStore, Option.map_eq_some'] at h
  obtain ⟨c, hc, rfl⟩ := h
  obtain ⟨hlt, -⟩ := List.get?_eq_some.mp hc
  have he : nextIdx (some (Ctx.cursorRef (nextIdx prev) c)) = nextIdx prev + 1 := rfl
  rw [he]
  omega

/-- `CertStore::do_find`: the generic enumeration shared by all searches.
Note that it always returns `Ok`: a null from the native find call is treated
as end of enumeration, never as an error. -/
def do_find (p : WinApi) (st : CertStore) (flags : Nat) (param : FindParam) :
    Except CngError (List CertContext) × List Event :=
  let r := do_findAux p st flags param none
  (Except.ok r.1, r.2)

/-! ### Search façade and name encoding -/

/-- `CertStore::find_by_str`: substring searches pass the raw text (converted
unchecked to a wide string) directly as the find parameter. -/
def CertStore.find_by_str (p : WinApi) (st : CertStore) (s : String)
    (flags : Nat) : Except CngError (List CertContext) × List Event :=
  let u16 := from_str_unchecked s
  do_find p st flags (FindParam.wstr u16)

/-- `CertStore::find_by_name` (store.rs lines 180-225): the two-phase
`CertStrToNameW` protocol.  Phase 1 queries the required size with a null
buffer; on failure the platform error is returned at once.  Phase 2 allocates
`vec![0u8; name_size]` and fills it; on failure the platform error is
returned.  The blob passed to `do_find` carries `cbData = x509name.len() as
u32` over the allocated buffer. -/
def CertStore.find_by_name (p : WinApi) (st : CertStore) (field : String)
    (flags : Nat) : Except CngError (List CertContext) × List Event :=
  let field_name := from_str_unchecked field
  let sizeEv := Event.evStrToNameSize MY_ENCODING_TYPE field_name CERT_X500_NAME_STR
  match p.certStrToNameSize MY_ENCODING_TYPE field_name CERT_X500_NAME_STR with
  | none => (Except.error CngError.Windows, [sizeEv])
  | some name_size =>
      let fillEv := Event.evStrToNameFill MY_ENCODING_TYPE field_name
        CERT_X500_NAME_STR name_size
      match p.certStrToNameFill MY_ENCODING_TYPE field_name CERT_X500_NAME_STR
          name_size with
      | none => (Except.error CngError.Windows, [sizeEv, fillEv])
      | some written =>
          let x509name := written.take name_size ++
            List.replicate (name_size - written.length) 0
          let name_blob := FindParam.blob (x509name.length % 2 ^ 32) x509name
          let r := do_find p st flags name_blob
          (r.1, sizeEv :: fillEv :: r.2)

/-- `CertStore::find_by_subject_str`. -/
def CertStore.find_by_subject_str (p : WinApi) (st : CertStore) (subject : String) :
    Except CngError (List CertContext) × List Event :=
  CertStore.find_by_str p st subject CERT_FIND_SUBJECT_STR

/-- `CertStore::find_by_subject_name`. -/
def CertStore.find_by_subject_name (p : WinApi) (st : CertStore) (subject : String) :
    Except CngError (List CertContext) × List Event :=
  CertStore.find_by_name p st subject CERT_FIND_SUBJECT_NAME

/-- `CertStore::find_by_issuer_str`. -/
def CertStore.find_by_issuer_str (p : WinApi) (st : CertStore) (subject : String) :
    Except CngError (List CertContext) × List Event :=
  CertStore.find_by_str p st subject CERT_FIND_ISSUER_STR

/-- `CertStore::find_by_issuer_name`. -/
def CertStore.find_by_issuer_name (p : WinApi) (st : CertStore) (subject : String) :
    Except CngError (List CertContext) × List Event :=
  CertStore.find_by_name p st subject CERT_FIND_ISSUER_NAME

/-- `CertStore::find_by_sha1`: builds a `CRYPTOAPI_BLOB` with
`cbData = hash.len() as u32` over the raw hash bytes — no validation of hash
algorithm or length. -/
def CertStore.find_by_sha1 (p : WinApi) (st : CertStore) (hash : List Nat) :
    Except CngError (List CertContext) × List Event :=
  let hash_blob := FindParam.blob (hash.length % 2 ^ 32) hash
  do_find p st CERT_FIND_HASH hash_blob

/-- `CertStore::find_all`. -/
def CertStore.find_all (p : WinApi) (st : CertStore) :
    Except CngError (List CertContext) × List Event :=
  do_find p st CERT_FIND_ANY FindParam.null

/-- `CertStore::open` (store.rs lines 66-78): opens an existing system store
with the scope's location flag OR'ed with `CERT_STORE_OPEN_EXISTING_FLAG`. -/
def CertStore.open_store (p : WinApi) (store_type : CertStoreType)
    (store_name : String) : Except CngError CertStore × List Event :=
  let name := from_str_unchecked store_name
  let flags := store_type.as_flags ||| CERT_STORE_OPEN_EXISTING_FLAG
  let ev := Event.evCertOpenStore flags name
  match p.certOpenStore flags name with
  | none => (Except.error CngError.Windows, [ev])
  | some certs => (Except.ok ⟨certs⟩, [ev])

/-- `CertStore::from_pkcs12` (store.rs lines 81-96): builds a blob with
`cbData = data.len() as u32` and calls `PFXImportCertStore` with
`CRYPT_EXPORTABLE | PKCS12_INCLUDE_EXTENDED_PROPERTIES | PKCS12_PREFER_CNG_KSP`. -/
def CertStore.from_pkcs12 (p : WinApi) (data : List Nat) (password : String) :
    Except CngError CertStore × List Event :=
  let cb := data.length % 2 ^ 32
  let pw := from_str_unchecked password
  let flags := CRYPT_EXPORTABLE ||| PKCS12_INCLUDE_EXTENDED_PROPERTIES |||
    PKCS12_PREFER_CNG_KSP
  let ev := Event.evPfxImport cb pw flags
  match p.pfxImportCertStore cb data pw flags with
  | none => (Except.error CngError.Windows, [ev])
  | some certs => (Except.ok ⟨certs⟩, [ev])

/-! ### Closed forms for the enumeration loop -/

/-- The `pPrevCertContext` index recorded by the find call that returns the
match at position `i`. -/
def prevOf : Nat → Option Nat
  | 0 => none
  | i + 1 => some i

/-- The result sequence the loop builds from the matches starting at
position `i`: position by position, the owned duplicate of the match. -/
def dupedFrom : List Nat → Nat → List CertContext
  | [], _ => []
  | c :: rest, i => CertContext.owned (Ctx.duped i c) :: dupedFrom rest (i + 1)

/-- The native-call trace the loop issues from position `i` on: one find call
per match, each followed by the duplication of that match, and a final find
call that returns null. -/
def traceFrom (flags : Nat) (param : FindParam) : List Nat → Nat → List Event
  | [], i => [Event.evCertFind flags param (prevOf i)]
  | c :: rest, i =>
      Event.evCertFind flags param (prevOf i) :: Event.evCertDup i c ::
        traceFrom flags param rest (i + 1)

theorem prevOf_nextIdx (prev : Option Ctx) :
    prevOf (nextIdx prev) = prev.map Ctx.idx := by
  cases prev <;> rfl

theorem do_findAux_of_none (p : WinApi) (st : CertStore) (flags : Nat)
    (param : FindParam) (prev : Option Ctx)
    (hp : certFindCertificateInStore (matchesOf p st flags param) prev = none) :
    do_findAux p st flags param prev =
      ([], [Event.evCertFind flags param (prev.map Ctx.idx)]) := by
  rw [do_findAux]
  split
  · rfl
  · rename_i ctx hctx
    rw [hp] at hctx
    exact absurd hctx (by simp)

theorem do_findAux_of_some (p : WinApi) (st : CertStore) (flags : Nat)
    (param : FindParam) (prev : Option Ctx) (ctx : Ctx)
    (hp : certFindCertificateInStore (matchesOf p st flags param) prev = some ctx) :
    do_findAux p st flags param prev =
      (CertContext.owned (certDuplicateCertificateContext ctx) ::
         (do_findAux p st flags param (some ctx)).1,
       Event.evCertFind flags param (prev.map Ctx.idx) ::
         Event.evCertDup ctx.idx ctx.certId ::
         (do_findAux p st flags param (some ctx)).2) := by
  rw [do_findAux]
  split
  · rename_i hctx
    rw [hp] at hctx
    exact absurd hctx (by simp)
  · rename_i ctx' hctx
    rw [hp] at hctx
    cases hctx
    rfl

theorem do_findAux_eq (p : WinApi) (st : CertStore) (flags : Nat)
    (param : FindParam) :
    ∀ (n : Nat) (prev : Option Ctx),
      (matchesOf p st flags param).length - nextIdx prev = n →
      do_findAux p st flags param prev =
        (dupedFrom ((matchesOf p st flags param).drop (nextIdx prev)) (nextIdx prev),
         traceFrom flags param
           ((matchesOf p st flags param).drop (nextIdx prev)) (nextIdx prev)) := by
  intro n
  induction n with
  | zero =>
      intro prev hn
      have hge : (matchesOf p st flags param).length ≤ nextIdx prev := by omega
      have hg : (matchesOf p st flags param).get? (nextIdx prev) = none :=
        List.get?_eq_none.mpr hge
      have hnone : certFindCertificateInStore (matchesOf p st flags param) prev = none := by
        simp only [certFindCertificateInStore, hg, Option.map_none']
      rw [do_findAux_of_none p st flags param prev hnone]
      rw [List.drop_eq_nil_of_le hge]
      rw [traceFrom, prevOf_nextIdx]
      rfl
  | succ n ih =>
      intro prev hn
      have hlt : nextIdx prev < (matchesOf p st flags param).length := by omega
      have hc : (matchesOf p st flags param).get? (nextIdx prev) =
          some ((matchesOf p st flags param).get ⟨nextIdx prev, hlt⟩) :=
        List.get?_eq_get hlt
      have hfind : certFindCertificateInStore (matchesOf p st flags param) prev =
          some (Ctx.cursorRef (nextIdx prev)
            ((matchesOf p st flags param).get ⟨nextIdx prev, hlt⟩)) := by
        simp [certFindCertificateInStore, hc]
      rw [do_findAux_of_some p st flags param prev _ hfind]
      have hnext : nextIdx (some (Ctx.cursorRef (nextIdx prev)
          ((matchesOf p st flags param).get ⟨nextIdx prev, hlt⟩))) = nextIdx prev + 1 := rfl
      have ihs := ih (some (Ctx.cursorRef (nextIdx prev)
          ((matchesOf p st flags param).get ⟨nextIdx prev, hlt⟩))) (by rw [hnext]; omega)
      rw [ihs, hnext]
      have hdrop : (matchesOf p st flags param).drop (nextIdx prev) =
          (matchesOf p st flags param).get ⟨nextIdx prev, hlt⟩ ::
            (matchesOf p st flags param).drop (nextIdx prev + 1) :=
        List.drop_eq_get_cons hlt
      rw [hdrop, dupedFrom, traceFrom, prevOf_nextIdx]
      rfl

/-- `do_find` in closed form: it always succeeds, returning one owned
duplicate per match in native enumeration order, and its trace is the
regular find/duplicate alternation. -/
theorem do_find_eq (p : WinApi) (st : CertStore) (flags : Nat)
    (param : FindParam) :
    do_find p st flags param =
      (Except.ok (dupedFrom (matchesOf p st flags param) 0),
       traceFrom flags param (matchesOf p st flags param) 0) := by
  unfold do_find
  rw [do_findAux_eq p st flags param ((matchesOf p st flags param).length) none
    (by simp [nextIdx])]
  simp [nextIdx]

/-- Scan a trace, checking that every find call that continues from a
previous match (position `i`) was preceded by the duplication of that match. -/
def dupsSeen : List Event → List Nat → Bool
  | [], _ => true
  | Event.evCertFind _ _ none :: rest, seen => dupsSeen rest seen
  | Event.evCertFind _ _ (some i) :: rest, seen =>
      if i ∈ seen then dupsSeen rest seen else false
  | Event.evCertDup i _ :: rest, seen => dupsSeen rest (i :: seen)
  | _ :: rest, seen => dupsSeen rest seen

theorem traceFrom_dupsSeen (flags : Nat) (param : FindParam) :
    ∀ (ms : List Nat) (i : Nat) (seen : List Nat),
      (i = 0 ∨ (i - 1) ∈ seen) →
      dupsSeen (traceFrom flags param ms i) seen = true := by
  intro ms
  induction ms with
  | nil =>
      intro i seen hi
      cases i with
      | zero => rfl
      | succ j =>
          rcases hi with hi | hi
          · exact absurd hi (by omega)
          · simp only [traceFrom, prevOf, dupsSeen]
            simp only [Nat.add_sub_cancel] at hi
            simp [hi]
  | cons c rest ih =>
      intro i seen hi
      cases i with
      | zero =>
          simp only [traceFrom, prevOf, dupsSeen]
          exact ih 1 (0 :: seen) (Or.inr (by simp))
      | succ j =>
          rcases hi with hi | hi
          · exact absurd hi (by omega)
          · simp only [traceFrom, prevOf, dupsSeen]
            simp only [Nat.add_sub_cancel] at hi
            rw [if_pos hi]
            exact ih (j + 2) ((j + 1) :: seen) (Or.inr (by simp))

theorem dupedFrom_isDuped :
    ∀ (ms : List Nat) (i : Nat) (cc : CertContext),
      cc ∈ dupedFrom ms i → cc.ctx.isDuped = true := by
  intro ms
  induction ms with
  | nil => intro i cc h; simp [dupedFrom] at h
  | cons c rest ih =>
      intro i cc h
      simp only [dupedFrom, List.mem_cons] at h
      rcases h with h | h
      · subst h; rfl
      · exact ih (i + 1) cc h

theorem dupedFrom_map_certId :
    ∀ (ms : List Nat) (i : Nat),
      (dupedFrom ms i).map (fun cc => cc.ctx.certId) = ms := by
  intro ms
  induction ms with
  | nil => intro i; rfl
  | cons c rest ih =>
      intro i
      simp only [dupedFrom, List.map_cons, ih]
      rfl

theorem dupedFrom_get? :
    ∀ (ms : List Nat) (i0 i c : Nat), ms.get? i = some c →
      (dupedFrom ms i0).get? i = some (CertContext.owned (Ctx.duped (i0 + i) c)) := by
  intro ms
  induction ms with
  | nil => intro i0 i c h; simp [List.get?] at h
  | cons x rest ih =>
      intro i0 i c h
      cases i with
      | zero =>
          simp only [List.get?] at h
          cases h
          rfl
      | succ j =>
          simp only [List.get?] at h
          have := ih (i0 + 1) j c h
          simpa [dupedFrom, List.get?, Nat.add_assoc, Nat.add_comm 1 j] using this

/-- Reading a null-terminated buffer built by the unchecked conversion sees
exactly the code points up to the first interior null. -/
theorem cstrView_append_zero :
    ∀ (l : List Nat), cstrView (l ++ [0]) = cstrView l := by
  intro l
  induction l with
  | nil => rfl
  | cons c rest ih =>
      by_cases hc : c = 0
      · subst hc
        simp [cstrView]
      · simp only [cstrView, List.cons_append, List.takeWhile]
        simp only [hc, decide_not, List.takeWhile] at *
        simp [hc, cstrView] at ih ⊢
        exact ih


/-! ### Claim theorems -/

/-- C1: for every search operation the enumeration either propagates a
platform error that carries no accumulated results, or completes
successfully; zero matches (including a hash absent from the store) yields a
successful empty sequence, never a distinct not-found error, and partial
results are never returned alongside an error.  In this code the enumeration
loop itself always completes successfully; only the name-encoding phases
(which run before any enumeration) can fail, and then the trace contains no
find and no duplicate call. -/
theorem C1_search_never_partial (p : WinApi) (st : CertStore) (s : String)
    (hash : List Nat) :
    (∃ certs, (CertStore.find_by_subject_str p st s).1 = Except.ok certs)
  ∧ (∃ certs, (CertStore.find_by_issuer_str p st s).1 = Except.ok certs)
  ∧ (∃ certs, (CertStore.find_by_sha1 p st hash).1 = Except.ok certs)
  ∧ (∃ certs, (CertStore.find_all p st).1 = Except.ok certs)
  ∧ (matchesOf p st CERT_FIND_SUBJECT_STR (FindParam.wstr (from_str_unchecked s)) = [] →
      (CertStore.find_by_subject_str p st s).1 = Except.ok [])
  ∧ (matchesOf p st CERT_FIND_ISSUER_STR (FindParam.wstr (from_str_unchecked s)) = [] →
      (CertStore.find_by_issuer_str p st s).1 = Except.ok [])
  ∧ (matchesOf p st CERT_FIND_HASH (FindParam.blob (hash.length % 2 ^ 32) hash) = [] →
      (CertStore.find_by_sha1 p st hash).1 = Except.ok [])
  ∧ (matchesOf p st CERT_FIND_ANY FindParam.null = [] →
      (CertStore.find_all p st).1 = Except.ok [])
  ∧ (∀ flags,
      (∃ certs, (CertStore.find_by_name p st s flags).1 = Except.ok certs)
    ∨ ((CertStore.find_by_name p st s flags).1 = Except.error CngError.Windows
        ∧ ∀ i c, Event.evCertDup i c ∉ (CertStore.find_by_name p st s flags).2)) := by
  refine ⟨?_, ?_, ?_, ?_, ?_, ?_, ?_, ?_, ?_⟩
  · exact ⟨_, by unfold CertStore.find_by_subject_str CertStore.find_by_str
                 rw [do_find_eq]⟩
  · exact ⟨_, by unfold CertStore.find_by_issuer_str CertStore.find_by_str
                 rw [do_find_eq]⟩
  · exact ⟨_, by unfold CertStore.find_by_sha1
                 rw [do_find_eq]⟩
  · exact ⟨_, by unfold CertStore.find_all
                 rw [do_find_eq]⟩
  · intro hempty
    unfold CertStore.find_by_subject_str CertStore.find_by_str
    rw [do_find_eq]
    simp [hempty, dupedFrom]
  · intro hempty
    unfold CertStore.find_by_issuer_str CertStore.find_by_str
    rw [do_find_eq]
    simp [hempty, dupedFrom]
  · intro hempty
    unfold CertStore.find_by_sha1
    rw [do_find_eq]
    show Except.ok (dupedFrom (matchesOf p st CERT_FIND_HASH
      (FindParam.blob (hash.length % 2 ^ 32) hash)) 0) = Except.ok []
    rw [hempty, dupedFrom]
  · intro hempty
    unfold CertStore.find_all
    rw [do_find_eq]
    simp [hempty, dupedFrom]
  · intro flags
    unfold CertStore.find_by_name
    cases hsz : p.certStrToNameSize MY_ENCODING_TYPE (from_str_unchecked s)
        CERT_X500_NAME_STR with
    | none =>
        right
        simp [hsz]
    | some name_size =>
        cases hfl : p.certStrToNameFill MY_ENCODING_TYPE (from_str_unchecked s)
            CERT_X500_NAME_STR name_size with
        | none =>
            right
            simp [hsz, hfl]
        | some written =>
            left
            simp only [hsz, hfl]
            rw [do_find_eq]
            exact ⟨_, rfl⟩

/-- C2: in every iteration of the enumeration loop, a non-null match is
duplicated (its reference count incremented) before the next native find
call, and only the duplicated handle — never the cursor-owned raw reference —
is appended to the result sequence, so every returned certificate handle is
owned independently of the cursor. -/
theorem C2_duplicate_before_next_find (p : WinApi) (st : CertStore)
    (flags : Nat) (param : FindParam) :
    (do_find p st flags param).1 = Except.ok (dupedFrom (matchesOf p st flags param) 0)
  ∧ (∀ cc, cc ∈ dupedFrom (matchesOf p st flags param) 0 → cc.ctx.isDuped = true)
  ∧ dupsSeen (do_find p st flags param).2 [] = true := by
  refine ⟨by rw [do_find_eq], fun cc h => dupedFrom_isDuped _ _ cc h, ?_⟩
  rw [do_find_eq]
  exact traceFrom_dupsSeen flags param (matchesOf p st flags param) 0 [] (Or.inl rfl)

/-- C4: each public search operation delegates to the generic enumeration
with exactly the match kind and parameter of the façade table: substring
searches pass the raw text, exact searches go through the name encoder, the
hash search passes the raw hash bytes unvalidated, find-all passes the
wildcard kind with a null parameter, and the six match kinds are pairwise
distinct. -/
theorem C4_facade_delegation (p : WinApi) (st : CertStore) (s : String)
    (hash : List Nat) :
    CertStore.find_by_subject_str p st s =
      do_find p st CERT_FIND_SUBJECT_STR (FindParam.wstr (from_str_unchecked s))
  ∧ CertStore.find_by_issuer_str p st s =
      do_find p st CERT_FIND_ISSUER_STR (FindParam.wstr (from_str_unchecked s))
  ∧ CertStore.find_by_subject_name p st s =
      CertStore.find_by_name p st s CERT_FIND_SUBJECT_NAME
  ∧ CertStore.find_by_issuer_name p st s =
      CertStore.find_by_name p st s CERT_FIND_ISSUER_NAME
  ∧ CertStore.find_by_sha1 p st hash =
      do_find p st CERT_FIND_HASH (FindParam.blob (hash.length % 2 ^ 32) hash)
  ∧ CertStore.find_all p st = do_find p st CERT_FIND_ANY FindParam.null
  ∧ [CERT_FIND_SUBJECT_STR, CERT_FIND_SUBJECT_NAME, CERT_FIND_ISSUER_STR,
      CERT_FIND_ISSUER_NAME, CERT_FIND_HASH, CERT_FIND_ANY].Nodup := by
  refine ⟨rfl, rfl, rfl, rfl, rfl, rfl, by decide⟩

/-- C7: the returned sequence preserves the native enumeration order — the
i-th element of the result is the owned duplicate of the i-th match yielded
by the native cursor, with no reordering, insertion, or omission. -/
theorem C7_native_order_preserved (p : WinApi) (st : CertStore) (flags : Nat)
    (param : FindParam) :
    (do_find p st flags param).1 = Except.ok (dupedFrom (matchesOf p st flags param) 0)
  ∧ (dupedFrom (matchesOf p st flags param) 0).map (fun cc => cc.ctx.certId) =
      matchesOf p st flags param
  ∧ ∀ i c, (matchesOf p st flags param).get? i = some c →
      (dupedFrom (matchesOf p st flags param) 0).get? i =
        some (CertContext.owned (Ctx.duped i c)) := by
  refine ⟨by rw [do_find_eq], dupedFrom_map_certId _ 0, fun i c h => ?_⟩
  simpa using dupedFrom_get? (matchesOf p st flags param) 0 i c h

/-- C3: the exact-name search performs the two-phase encoding protocol:
phase 1 calls `CertStrToNameW` with a null output buffer to obtain only the
required size; on phase-1 failure the platform error is returned at once,
with no phase 2 and no search; otherwise phase 2 allocates a buffer of
exactly the reported size and calls the encoder again, and on phase-2
failure the platform error is returned without searching. -/
theorem C3_two_phase_name_encoding (p : WinApi) (st : CertStore)
    (field : String) (flags : Nat) :
    ((CertStore.find_by_name p st field flags).2).head? =
      some (Event.evStrToNameSize MY_ENCODING_TYPE (from_str_unchecked field)
        CERT_X500_NAME_STR)
  ∧ (p.certStrToNameSize MY_ENCODING_TYPE (from_str_unchecked field)
        CERT_X500_NAME_STR = none →
      CertStore.find_by_name p st field flags =
        (Except.error CngError.Windows,
         [Event.evStrToNameSize MY_ENCODING_TYPE (from_str_unchecked field)
            CERT_X500_NAME_STR]))
  ∧ (∀ name_size,
      p.certStrToNameSize MY_ENCODING_TYPE (from_str_unchecked field)
          CERT_X500_NAME_STR = some name_size →
      (p.certStrToNameFill MY_ENCODING_TYPE (from_str_unchecked field)
          CERT_X500_NAME_STR name_size = none →
        CertStore.find_by_name p st field flags =
          (Except.error CngError.Windows,
           [Event.evStrToNameSize MY_ENCODING_TYPE (from_str_unchecked field)
              CERT_X500_NAME_STR,
            Event.evStrToNameFill MY_ENCODING_TYPE (from_str_unchecked field)
              CERT_X500_NAME_STR name_size]))
      ∧ (∀ written,
          p.certStrToNameFill MY_ENCODING_TYPE (from_str_unchecked field)
              CERT_X500_NAME_STR name_size = some written →
          (written.take name_size ++
            List.replicate (name_size - written.length) 0).length = name_size
          ∧ CertStore.find_by_name p st field flags =
              ((do_find p st flags (FindParam.blob
                 ((written.take name_size ++
                    List.replicate (name_size - written.length) 0).length % 2 ^ 32)
                 (written.take name_size ++
                    List.replicate (name_size - written.length) 0))).1,
               Event.evStrToNameSize MY_ENCODING_TYPE (from_str_unchecked field)
                 CERT_X500_NAME_STR ::
               Event.evStrToNameFill MY_ENCODING_TYPE (from_str_unchecked field)
                 CERT_X500_NAME_STR name_size ::
               (do_find p st flags (FindParam.blob
                 ((written.take name_size ++
                    List.replicate (name_size - written.length) 0).length % 2 ^ 32)
                 (written.take name_size ++
                    List.replicate (name_size - written.length) 0))).2))) := by
  refine ⟨?_, ?_, ?_⟩
  · unfold CertStore.find_by_name
    cases hsz : p.certStrToNameSize MY_ENCODING_TYPE (from_str_unchecked field)
        CERT_X500_NAME_STR with
    | none => simp [hsz]
    | some name_size =>
        cases hfl : p.certStrToNameFill MY_ENCODING_TYPE (from_str_unchecked field)
            CERT_X500_NAME_STR name_size with
        | none => simp [hsz, hfl]
        | some written => simp [hsz, hfl]
  · intro hsz
    unfold CertStore.find_by_name
    simp [hsz]
  · intro name_size hsz
    constructor
    · intro hfl
      unfold CertStore.find_by_name
      simp [hsz, hfl]
    · intro written hfl
      constructor
      · simp only [List.length_append, List.length_take, List.length_replicate]
        omega
      · unfold CertStore.find_by_name
        simp [hsz, hfl]

/-- C5: `open` passes to `CertOpenStore` the flags formed by OR-ing the
scope's location flag (its location id shifted by the location shift) with
the open-existing flag; the three scopes map to pairwise distinct location
flags; a store handle is returned on success and a platform error when the
native open fails (store absent or access denied). -/
theorem C5_open_scope_flags (p : WinApi) (t : CertStoreType)
    (store_name : String) :
    CertStoreType.as_flags CertStoreType.LocalMachine =
      CERT_SYSTEM_STORE_LOCAL_MACHINE_ID <<< CERT_SYSTEM_STORE_LOCATION_SHIFT
  ∧ CertStoreType.as_flags CertStoreType.CurrentUser =
      CERT_SYSTEM_STORE_CURRENT_USER_ID <<< CERT_SYSTEM_STORE_LOCATION_SHIFT
  ∧ CertStoreType.as_flags CertStoreType.CurrentService =
      CERT_SYSTEM_STORE_CURRENT_SERVICE_ID <<< CERT_SYSTEM_STORE_LOCATION_SHIFT
  ∧ [CertStoreType.as_flags CertStoreType.LocalMachine,
      CertStoreType.as_flags CertStoreType.CurrentUser,
      CertStoreType.as_flags CertStoreType.CurrentService].Nodup
  ∧ (CertStore.open_store p t store_name).2 =
      [Event.evCertOpenStore (t.as_flags ||| CERT_STORE_OPEN_EXISTING_FLAG)
        (from_str_unchecked store_name)]
  ∧ (∀ certs, p.certOpenStore (t.as_flags ||| CERT_STORE_OPEN_EXISTING_FLAG)
        (from_str_unchecked store_name) = some certs →
      (CertStore.open_store p t store_name).1 = Except.ok ⟨certs⟩)
  ∧ (p.certOpenStore (t.as_flags ||| CERT_STORE_OPEN_EXISTING_FLAG)
        (from_str_unchecked store_name) = none →
      (CertStore.open_store p t store_name).1 = Except.error CngError.Windows) := by
  refine ⟨rfl, rfl, rfl, by decide, ?_, ?_, ?_⟩
  · unfold CertStore.open_store
    cases h : p.certOpenStore (t.as_flags ||| CERT_STORE_OPEN_EXISTING_FLAG)
        (from_str_unchecked store_name) with
    | none => simp [h]
    | some certs => simp [h]
  · intro certs h
    unfold CertStore.open_store
    simp [h]
  · intro h
    unfold CertStore.open_store
    simp [h]

/-- C6: `from_pkcs12` invokes `PFXImportCertStore` with flags that include
the exportable-keys bit and the prefer-CNG-key-storage-provider bit,
returning a fresh store handle on success; on a malformed archive or wrong
password (native failure) it returns a platform error and no handle. -/
theorem C6_pkcs12_import (p : WinApi) (data : List Nat) (password : String) :
    (CRYPT_EXPORTABLE ||| PKCS12_INCLUDE_EXTENDED_PROPERTIES |||
        PKCS12_PREFER_CNG_KSP) &&& CRYPT_EXPORTABLE ≠ 0
  ∧ (CRYPT_EXPORTABLE ||| PKCS12_INCLUDE_EXTENDED_PROPERTIES |||
        PKCS12_PREFER_CNG_KSP) &&& PKCS12_PREFER_CNG_KSP ≠ 0
  ∧ (CertStore.from_pkcs12 p data password).2 =
      [Event.evPfxImport (data.length % 2 ^ 32) (from_str_unchecked password)
        (CRYPT_EXPORTABLE ||| PKCS12_INCLUDE_EXTENDED_PROPERTIES |||
          PKCS12_PREFER_CNG_KSP)]
  ∧ (∀ certs, p.pfxImportCertStore (data.length % 2 ^ 32) data
        (from_str_unchecked password)
        (CRYPT_EXPORTABLE ||| PKCS12_INCLUDE_EXTENDED_PROPERTIES |||
          PKCS12_PREFER_CNG_KSP) = some certs →
      (CertStore.from_pkcs12 p data password).1 = Except.ok ⟨certs⟩)
  ∧ (p.pfxImportCertStore (data.length % 2 ^ 32) data
        (from_str_unchecked password)
        (CRYPT_EXPORTABLE ||| PKCS12_INCLUDE_EXTENDED_PROPERTIES |||
          PKCS12_PREFER_CNG_KSP) = none →
      (CertStore.from_pkcs12 p data password).1 = Except.error CngError.Windows) := by
  refine ⟨by decide, by decide, ?_, ?_, ?_⟩
  · unfold CertStore.from_pkcs12
    cases h : p.pfxImportCertStore (data.length % 2 ^ 32) data
        (from_str_unchecked password)
        (CRYPT_EXPORTABLE ||| PKCS12_INCLUDE_EXTENDED_PROPERTIES |||
          PKCS12_PREFER_CNG_KSP) with
    | none => simp only [h]
    | some certs => simp only [h]
  · intro certs h
    unfold CertStore.from_pkcs12
    simp only [h]
  · intro h
    unfold CertStore.from_pkcs12
    simp only [h]

/-- C8: read-only search is idempotent: no search mutates the store's
contents or the handle's state, so any search depends only on the store's
contents and the platform's (unchanged) behavior — in particular, calling
the same search twice in succession on an unchanged store returns equal
result sequences (equal as lists, hence as sets). -/
theorem C8_search_idempotent (p p2 : WinApi) (st st2 : CertStore) (s : String)
    (hash : List Nat) (hst : st.certs = st2.certs)
    (hm : p.certMatches = p2.certMatches)
    (hsz : p.certStrToNameSize = p2.certStrToNameSize)
    (hfl : p.certStrToNameFill = p2.certStrToNameFill) :
    CertStore.find_by_subject_str p st s = CertStore.find_by_subject_str p2 st2 s
  ∧ CertStore.find_by_issuer_str p st s = CertStore.find_by_issuer_str p2 st2 s
  ∧ CertStore.find_by_subject_name p st s = CertStore.find_by_subject_name p2 st2 s
  ∧ CertStore.find_by_issuer_name p st s = CertStore.find_by_issuer_name p2 st2 s
  ∧ CertStore.find_by_sha1 p st hash = CertStore.find_by_sha1 p2 st2 hash
  ∧ CertStore.find_all p st = CertStore.find_all p2 st2 := by
  have hmat : ∀ flags param, matchesOf p st flags param = matchesOf p2 st2 flags param := by
    intro flags param
    unfold matchesOf
    rw [hst, hm]
  have hdo : ∀ flags param, do_find p st flags param = do_find p2 st2 flags param := by
    intro flags param
    rw [do_find_eq, do_find_eq, hmat]
  have hname : ∀ flags, CertStore.find_by_name p st s flags =
      CertStore.find_by_name p2 st2 s flags := by
    intro flags
    unfold CertStore.find_by_name
    rw [hsz, hfl]
    cases hsz2 : p2.certStrToNameSize MY_ENCODING_TYPE (from_str_unchecked s)
        CERT_X500_NAME_STR with
    | none => simp only [hsz2]
    | some name_size =>
        cases hfl2 : p2.certStrToNameFill MY_ENCODING_TYPE (from_str_unchecked s)
            CERT_X500_NAME_STR name_size with
        | none => simp only [hsz2, hfl2]
        | some written => simp only [hsz2, hfl2, hdo]
  refine ⟨?_, ?_, hname CERT_FIND_SUBJECT_NAME, hname CERT_FIND_ISSUER_NAME, ?_, ?_⟩
  · unfold CertStore.find_by_subject_str CertStore.find_by_str
    exact hdo _ _
  · unfold CertStore.find_by_issuer_str CertStore.find_by_str
    exact hdo _ _
  · unfold CertStore.find_by_sha1
    exact hdo _ _
  · unfold CertStore.find_all
    exact hdo _ _

/-- C9: byte lengths passed to the platform are truncated to 32 bits: for an
input of length at least 2^32, `from_pkcs12` and `find_by_sha1` set the
blob's `cbData` field to the length modulo 2^32 — a value different from the
real length — rather than rejecting the oversized input (the import still
succeeds whenever the native call does). -/
theorem C9_u32_length_truncation (p : WinApi) (st : CertStore)
    (data hash : List Nat) (password : String)
    (hd : 2 ^ 32 ≤ data.length) (hh : 2 ^ 32 ≤ hash.length) :
    (CertStore.from_pkcs12 p data password).2 =
      [Event.evPfxImport (data.length % 2 ^ 32) (from_str_unchecked password)
        (CRYPT_EXPORTABLE ||| PKCS12_INCLUDE_EXTENDED_PROPERTIES |||
          PKCS12_PREFER_CNG_KSP)]
  ∧ data.length % 2 ^ 32 ≠ data.length
  ∧ (∀ certs, p.pfxImportCertStore (data.length % 2 ^ 32) data
        (from_str_unchecked password)
        (CRYPT_EXPORTABLE ||| PKCS12_INCLUDE_EXTENDED_PROPERTIES |||
          PKCS12_PREFER_CNG_KSP) = some certs →
      (CertStore.from_pkcs12 p data password).1 = Except.ok ⟨certs⟩)
  ∧ CertStore.find_by_sha1 p st hash =
      do_find p st CERT_FIND_HASH (FindParam.blob (hash.length % 2 ^ 32) hash)
  ∧ hash.length % 2 ^ 32 ≠ hash.length := by
  have h32 : (0 : Nat) < 2 ^ 32 := by norm_num
  refine ⟨?_, ?_, ?_, rfl, ?_⟩
  · unfold CertStore.from_pkcs12
    cases h : p.pfxImportCertStore (data.length % 2 ^ 32) data
        (from_str_unchecked password)
        (CRYPT_EXPORTABLE ||| PKCS12_INCLUDE_EXTENDED_PROPERTIES |||
          PKCS12_PREFER_CNG_KSP) with
    | none => simp only [h]
    | some certs => simp only [h]
  · have := Nat.mod_lt data.length h32
    omega
  · intro certs h
    unfold CertStore.from_pkcs12
    simp only [h]
  · have := Nat.mod_lt hash.length h32
    omega

/-- C10: none of the string-taking operations validates its argument for
embedded null characters: the conversion to the native wide string is
unchecked, so a string with an interior null is never rejected — each
operation still issues its native call (with the unchecked conversion of the
full string), its outcome is exactly the native call's outcome, and the
platform, reading the buffer as a null-terminated string, sees the text
truncated at the first null. -/
theorem C10_no_null_check (p : WinApi) (t : CertStoreType) (st : CertStore)
    (s : String) (data : List Nat) :
    (CertStore.open_store p t s).2 =
      [Event.evCertOpenStore (t.as_flags ||| CERT_STORE_OPEN_EXISTING_FLAG)
        (from_str_unchecked s)]
  ∧ ((∃ stn, (CertStore.open_store p t s).1 = Except.ok stn) ↔
      ∃ cs, p.certOpenStore (t.as_flags ||| CERT_STORE_OPEN_EXISTING_FLAG)
        (from_str_unchecked s) = some cs)
  ∧ (CertStore.from_pkcs12 p data s).2 =
      [Event.evPfxImport (data.length % 2 ^ 32) (from_str_unchecked s)
        (CRYPT_EXPORTABLE ||| PKCS12_INCLUDE_EXTENDED_PROPERTIES |||
          PKCS12_PREFER_CNG_KSP)]
  ∧ ((∃ stn, (CertStore.from_pkcs12 p data s).1 = Except.ok stn) ↔
      ∃ cs, p.pfxImportCertStore (data.length % 2 ^ 32) data
        (from_str_unchecked s)
        (CRYPT_EXPORTABLE ||| PKCS12_INCLUDE_EXTENDED_PROPERTIES |||
          PKCS12_PREFER_CNG_KSP) = some cs)
  ∧ (∃ certs, (CertStore.find_by_subject_str p st s).1 = Except.ok certs)
  ∧ (∃ certs, (CertStore.find_by_issuer_str p st s).1 = Except.ok certs)
  ∧ (∀ flags, ((∃ certs, (CertStore.find_by_name p st s flags).1 = Except.ok certs) ↔
      ∃ name_size written,
        p.certStrToNameSize MY_ENCODING_TYPE (from_str_unchecked s)
          CERT_X500_NAME_STR = some name_size ∧
        p.certStrToNameFill MY_ENCODING_TYPE (from_str_unchecked s)
          CERT_X500_NAME_STR name_size = some written))
  ∧ cstrView (from_str_unchecked s) = cstrView (s.data.map Char.toNat) := by
  refine ⟨?_, ?_, ?_, ?_, ?_, ?_, ?_, cstrView_append_zero _⟩
  · unfold CertStore.open_store
    cases h : p.certOpenStore (t.as_flags ||| CERT_STORE_OPEN_EXISTING_FLAG)
        (from_str_unchecked s) with
    | none => simp only [h]
    | some certs => simp only [h]
  · unfold CertStore.open_store
    cases h : p.certOpenStore (t.as_flags ||| CERT_STORE_OPEN_EXISTING_FLAG)
        (from_str_unchecked s) with
    | none => simp [h]
    | some certs => simp [h]
  · unfold CertStore.from_pkcs12
    cases h : p.pfxImportCertStore (data.length % 2 ^ 32) data
        (from_str_unchecked s)
        (CRYPT_EXPORTABLE ||| PKCS12_INCLUDE_EXTENDED_PROPERTIES |||
          PKCS12_PREFER_CNG_KSP) with
    | none => simp only [h]
    | some certs => simp only [h]
  · unfold CertStore.from_pkcs12
    cases h : p.pfxImportCertStore (data.length % 2 ^ 32) data
        (from_str_unchecked s)
        (CRYPT_EXPORTABLE ||| PKCS12_INCLUDE_EXTENDED_PROPERTIES |||
          PKCS12_PREFER_CNG_KSP) with
    | none => simp only [h]; simp
    | some certs => simp only [h]; simp
  · unfold CertStore.find_by_subject_str CertStore.find_by_str
    rw [do_find_eq]
    exact ⟨_, rfl⟩
  · unfold CertStore.find_by_issuer_str CertStore.find_by_str
    rw [do_find_eq]
    exact ⟨_, rfl⟩
  · intro flags
    unfold CertStore.find_by_name
    cases hsz : p.certStrToNameSize MY_ENCODING_TYPE (from_str_unchecked s)
        CERT_X500_NAME_STR with
    | none => simp [hsz]
    | some name_size =>
        cases hfl : p.certStrToNameFill MY_ENCODING_TYPE (from_str_unchecked s)
            CERT_X500_NAME_STR name_size with
        | none => simp [hsz, hfl]
        | some written =>
            simp only [hsz, hfl]
            rw [do_find_eq]
            simp [hfl]

/-! ### Concrete instances for witnesses -/

/-- A concrete platform oracle whose native calls all succeed. -/
def apiOk : WinApi where
  certMatches := fun _ _ c => c % 2 == 1
  certStrToNameSize := fun _ _ _ => some 4
  certStrToNameFill := fun _ _ _ _ => some [1, 2]
  certOpenStore := fun _ _ => some [10, 11]
  pfxImportCertStore := fun _ _ _ _ => some [7]

/-- A concrete platform oracle whose native calls all fail. -/
def apiFail : WinApi where
  certMatches := fun _ _ _ => false
  certStrToNameSize := fun _ _ _ => none
  certStrToNameFill := fun _ _ _ _ => none
  certOpenStore := fun _ _ => none
  pfxImportCertStore := fun _ _ _ _ => none

/-- A concrete store with three certificates. -/
def stSample : CertStore := ⟨[1, 2, 3]⟩

/-- Witness for C1: on a store where nothing matches, `find_all` returns a
successful empty sequence. -/
theorem C1_search_never_partial_witness :
    matchesOf apiFail stSample CERT_FIND_ANY FindParam.null = []
  ∧ (CertStore.find_all apiFail stSample).1 = Except.ok [] := by
  have h := C1_search_never_partial apiFail stSample "MY" []
  exact ⟨by decide, h.2.2.2.2.2.2.2.1 (by decide)⟩

/-- Witness for C2 at a concrete store and oracle. -/
theorem C2_duplicate_before_next_find_witness :
    (do_find apiOk stSample CERT_FIND_ANY FindParam.null).1 =
      Except.ok (dupedFrom (matchesOf apiOk stSample CERT_FIND_ANY FindParam.null) 0)
  ∧ (CertContext.owned (Ctx.duped 0 1)).ctx.isDuped = true
  ∧ dupsSeen (do_find apiOk stSample CERT_FIND_ANY FindParam.null).2 [] = true := by
  have h := C2_duplicate_before_next_find apiOk stSample CERT_FIND_ANY FindParam.null
  exact ⟨h.1, h.2.1 (CertContext.owned (Ctx.duped 0 1)) (by decide), h.2.2⟩

/-- Witness for C3: a failing phase 1 stops immediately; a successful phase 1
of size 4 yields a phase-2 buffer of exactly length 4. -/
theorem C3_two_phase_name_encoding_witness :
    CertStore.find_by_name apiFail stSample "CN=Test" CERT_FIND_SUBJECT_NAME =
      (Except.error CngError.Windows,
       [Event.evStrToNameSize MY_ENCODING_TYPE (from_str_unchecked "CN=Test")
          CERT_X500_NAME_STR])
  ∧ (([1, 2] : List Nat).take 4 ++
      List.replicate (4 - ([1, 2] : List Nat).length) 0).length = 4 := by
  refine ⟨(C3_two_phase_name_encoding apiFail stSample "CN=Test"
    CERT_FIND_SUBJECT_NAME).2.1 rfl, ?_⟩
  exact (((C3_two_phase_name_encoding apiOk stSample "CN=Test"
    CERT_FIND_SUBJECT_NAME).2.2 4 rfl).2 [1, 2] rfl).1

/-- Witness for C5: open succeeds through the oracle and fails with a
platform error when the native open fails. -/
theorem C5_open_scope_flags_witness :
    (CertStore.open_store apiOk CertStoreType.LocalMachine "MY").1 =
      Except.ok ⟨[10, 11]⟩
  ∧ (CertStore.open_store apiFail CertStoreType.CurrentUser "MY").1 =
      Except.error CngError.Windows :=
  ⟨(C5_open_scope_flags apiOk CertStoreType.LocalMachine "MY").2.2.2.2.2.1
      [10, 11] rfl,
   (C5_open_scope_flags apiFail CertStoreType.CurrentUser "MY").2.2.2.2.2.2 rfl⟩

/-- Witness for C6: import succeeds through the oracle and fails with a
platform error when the native import fails. -/
theorem C6_pkcs12_import_witness :
    (CertStore.from_pkcs12 apiOk [9, 9] "pw").1 = Except.ok ⟨[7]⟩
  ∧ (CertStore.from_pkcs12 apiFail [9, 9] "pw").1 = Except.error CngError.Windows :=
  ⟨(C6_pkcs12_import apiOk [9, 9] "pw").2.2.2.1 [7] rfl,
   (C6_pkcs12_import apiFail [9, 9] "pw").2.2.2.2 rfl⟩

/-- Witness for C7: the first element of a concrete search result is the
duplicate of the first native match. -/
theorem C7_native_order_preserved_witness :
    (dupedFrom (matchesOf apiOk stSample CERT_FIND_ANY FindParam.null) 0).get? 0 =
      some (CertContext.owned (Ctx.duped 0 1)) :=
  (C7_native_order_preserved apiOk stSample CERT_FIND_ANY FindParam.null).2.2 0 1
    (by decide)

/-- Witness for C8: two successive identical searches agree. -/
theorem C8_search_idempotent_witness :
    CertStore.find_all apiOk stSample = CertStore.find_all apiOk stSample :=
  (C8_search_idempotent apiOk apiOk stSample stSample "CN=Test" [1, 2]
    rfl rfl rfl rfl).2.2.2.2.2

/-- Witness for C9 at an input of length exactly 2^32: the 32-bit cbData
field differs from the real length. -/
theorem C9_u32_length_truncation_witness :
    (List.replicate (2 ^ 32) (0 : Nat)).length % 2 ^ 32 ≠
      (List.replicate (2 ^ 32) (0 : Nat)).length :=
  (C9_u32_length_truncation apiOk stSample (List.replicate (2 ^ 32) 0)
    (List.replicate (2 ^ 32) 0) "pw" (by rw [List.length_replicate])
    (by rw [List.length_replicate])).2.1

/-- Witness for C10 at a string with an interior null: the platform-visible
string is truncated at the null, and nothing rejected the input. -/
theorem C10_no_null_check_witness :
    cstrView (from_str_unchecked "A\x00B") = cstrView ("A\x00B".data.map Char.toNat)
  ∧ cstrView (from_str_unchecked "A\x00B") = [65] := by
  refine ⟨(C10_no_null_check apiOk CertStoreType.LocalMachine stSample
    "A\x00B" []).2.2.2.2.2.2.2, ?_⟩
  decide
